import Mathlib

/-!
Verification of the data-preparation and query pipeline of the NC Health
Insights Dashboard (`app.py`): the geo loader's startup block, the County
identifier resolution (`County_ID` synthesis), and the indicator query
callback `update_visualizations` (median imputation, choropleth inputs,
`nlargest`/`nsmallest` ranking).

Numeric cells are modelled as `Option ℚ` (`none` is pandas `NaN`); the
dataframe is an explicit column-oriented table; the Dash callback becomes a
pure function from the module-level state and the selected indicator to the
three returned figures, with `Option` capturing an uncaught exception.
-/

namespace NCApp

/-! ### Decimal rendering facts about `Nat.repr`

`merged_nc.index.astype(str)` renders the 0-based row index in decimal,
which is exactly `Nat.repr`.  We prove that `Nat.repr` is injective and
produces no underscore, so the synthesized `County + "_" + index`
identifiers are pairwise distinct. -/

/-- Decode a decimal digit character back to its value. -/
def decodeChar (c : Char) : Nat := c.toNat - 48

/-- Decode a big-endian list of decimal digit characters. -/
def decodeChars (l : List Char) : Nat := l.foldl (fun a c => 10 * a + decodeChar c) 0

theorem decodeChar_digitChar : ∀ k : Fin 10, decodeChar (Nat.digitChar k.val) = k.val := by
  decide

theorem digitChar_ne_underscore : ∀ k : Fin 10, Nat.digitChar k.val ≠ '_' := by
  decide

theorem toDigitsCore_append :
    ∀ n fuel : Nat, n < fuel → ∀ ds : List Char,
      Nat.toDigitsCore 10 fuel n ds = Nat.toDigits 10 n ++ ds := by
  intro n
  induction n using Nat.strong_induction_on with
  | _ n ih =>
    intro fuel hf ds
    match fuel, hf with
    | fuel + 1, hf =>
      by_cases h10 : n / 10 = 0
      · simp only [Nat.toDigitsCore, Nat.toDigits, h10, if_true, List.singleton_append]
      · have hnpos : 0 < n := by
          rcases Nat.eq_zero_or_pos n with h | h
          · subst h; simp at h10
          · exact h
        have hdiv_lt : n / 10 < n := Nat.div_lt_self hnpos (by norm_num)
        have hfuel : n / 10 < fuel := lt_of_lt_of_le hdiv_lt (Nat.lt_succ_iff.mp hf)
        have hself : n / 10 < n + 1 - 1 + 1 := by omega
        simp only [Nat.toDigitsCore, Nat.toDigits, h10, if_false]
        rw [ih (n / 10) hdiv_lt fuel hfuel, ih (n / 10) hdiv_lt n (by omega)]
        simp [List.append_assoc]

theorem toDigits_eq_append (n : Nat) (h : ¬ n / 10 = 0) :
    Nat.toDigits 10 n = Nat.toDigits 10 (n / 10) ++ [Nat.digitChar (n % 10)] := by
  have hnpos : 0 < n := by
    rcases Nat.eq_zero_or_pos n with h0 | h0
    · subst h0; simp at h
    · exact h0
  have hdiv_lt : n / 10 < n := Nat.div_lt_self hnpos (by norm_num)
  show Nat.toDigitsCore 10 (n + 1) n [] = _
  simp only [Nat.toDigitsCore, h, if_false]
  exact toDigitsCore_append (n / 10) n hdiv_lt [Nat.digitChar (n % 10)]

theorem toDigits_eq_single (n : Nat) (h : n / 10 = 0) :
    Nat.toDigits 10 n = [Nat.digitChar (n % 10)] := by
  show Nat.toDigitsCore 10 (n + 1) n [] = _
  simp only [Nat.toDigitsCore, h, if_true]

theorem decodeChars_toDigits : ∀ n : Nat, decodeChars (Nat.toDigits 10 n) = n := by
  intro n
  induction n using Nat.strong_induction_on with
  | _ n ih =>
    have hmod : n % 10 < 10 := Nat.mod_lt n (by norm_num)
    by_cases h10 : n / 10 = 0
    · rw [toDigits_eq_single n h10]
      have hd := decodeChar_digitChar ⟨n % 10, hmod⟩
      simp only [decodeChars, List.foldl_cons, List.foldl_nil]
      have := Nat.div_add_mod n 10
      simp only [hd]
      omega
    · have hnpos : 0 < n := by
        rcases Nat.eq_zero_or_pos n with h0 | h0
        · subst h0; simp at h10
        · exact h0
      have hdiv_lt : n / 10 < n := Nat.div_lt_self hnpos (by norm_num)
      rw [toDigits_eq_append n h10]
      have hd := decodeChar_digitChar ⟨n % 10, hmod⟩
      simp only [decodeChars, List.foldl_append, List.foldl_cons, List.foldl_nil]
      have hih := ih (n / 10) hdiv_lt
      simp only [decodeChars] at hih
      rw [hih, hd]
      exact Nat.div_add_mod n 10

theorem mem_toDigits_ne_underscore : ∀ n : Nat, ∀ c ∈ Nat.toDigits 10 n, c ≠ '_' := by
  intro n
  induction n using Nat.strong_induction_on with
  | _ n ih =>
    intro c hc
    have hmod : n % 10 < 10 := Nat.mod_lt n (by norm_num)
    by_cases h10 : n / 10 = 0
    · rw [toDigits_eq_single n h10] at hc
      simp only [List.mem_singleton] at hc
      subst hc
      exact digitChar_ne_underscore ⟨n % 10, hmod⟩
    · have hnpos : 0 < n := by
        rcases Nat.eq_zero_or_pos n with h0 | h0
        · subst h0; simp at h10
        · exact h0
      have hdiv_lt : n / 10 < n := Nat.div_lt_self hnpos (by norm_num)
      rw [toDigits_eq_append n h10] at hc
      rcases List.mem_append.mp hc with h | h
      · exact ih (n / 10) hdiv_lt c h
      · simp only [List.mem_singleton] at h
        subst h
        exact digitChar_ne_underscore ⟨n % 10, hmod⟩

theorem toDigits_injective {a b : Nat} (h : Nat.toDigits 10 a = Nat.toDigits 10 b) : a = b := by
  have ha := decodeChars_toDigits a
  have hb := decodeChars_toDigits b
  rw [h] at ha
  omega

theorem takeWhile_append_of_sat (p : Char → Bool) :
    ∀ xs : List Char, (∀ x ∈ xs, p x = true) → ∀ y : Char, p y = false → ∀ ys : List Char,
      (xs ++ y :: ys).takeWhile p = xs := by
  intro xs
  induction xs with
  | nil =>
    intro _ y hy ys
    simp [List.takeWhile, hy]
  | cons x xs ihx =>
    intro hsat y hy ys
    have hx : p x = true := hsat x (List.mem_cons_self x xs)
    simp only [List.cons_append, List.takeWhile, hx]
    exact congrArg (List.cons x) (ihx (fun z hz => hsat z (List.mem_cons_of_mem x hz)) y hy ys)

/-- The identifier-synthesis string operation of line 170 of `app.py`
(for a single row): `county + "_" + str(index)`. -/
def rowID (county : String) (i : Nat) : String := county ++ "_" ++ Nat.repr i

theorem repr_data (i : Nat) : (Nat.repr i).data = Nat.toDigits 10 i := rfl

theorem rowID_index_injective {s₁ s₂ : String} {i j : Nat}
    (h : rowID s₁ i = rowID s₂ j) : i = j := by
  have hd : s₁.data ++ ('_' :: Nat.toDigits 10 i) = s₂.data ++ ('_' :: Nat.toDigits 10 j) := by
    have := congrArg String.data h
    simpa [rowID, String.data_append, repr_data, List.append_assoc] using this
  have hrev := congrArg List.reverse hd
  simp only [List.reverse_append, List.reverse_cons] at hrev
  have hrev' : ((Nat.toDigits 10 i).reverse ++ ['_']) ++ s₁.data.reverse
      = ((Nat.toDigits 10 j).reverse ++ ['_']) ++ s₂.data.reverse := by
    simpa [List.append_assoc] using hrev
  have htw := congrArg (List.takeWhile (fun c => c != '_')) hrev'
  have hsat : ∀ n : Nat, ∀ x ∈ (Nat.toDigits 10 n).reverse, (x != '_') = true := by
    intro n x hx
    have := mem_toDigits_ne_underscore n x (List.mem_reverse.mp hx)
    simpa [bne_iff_ne] using this
  have hu : ((fun c => c != '_') '_') = false := by decide
  simp only [List.append_assoc, List.singleton_append] at htw
  rw [takeWhile_append_of_sat _ _ (hsat i) '_' hu,
    takeWhile_append_of_sat _ _ (hsat j) '_' hu] at htw
  exact toDigits_injective (List.reverse_injective htw)

/-! ### Data model

`merged_nc` is a GeoDataFrame.  We model it column-oriented: the natural key
column `"County"` (with a presence flag), the synthesized `"County_ID"`
column when the resolver created it, the numeric indicator columns
(`Option ℚ` cells, `none` being pandas `NaN` — the post-coercion view after
the `pd.to_numeric(..., errors='coerce')` loop of lines 181-185), and the
names of the remaining non-numeric columns (e.g. `"geometry"`).  The model
reserves the names `"County"` and `"County_ID"` for the key columns: no
indicator column shadows them. -/

structure Table where
  hasCountyCol : Bool
  counties : List String
  countyIDs : Option (List String)
  data : List (String × List (Option ℚ))
  otherCols : List String
deriving DecidableEq

/-- The dataframe's column index, as consulted by `in merged_nc.columns`. -/
def Table.columns (t : Table) : List String :=
  (if t.hasCountyCol then ["County"] else []) ++
    (match t.countyIDs with | some _ => ["County_ID"] | none => []) ++
    t.data.map Prod.fst ++ t.otherCols

def lookupCol : List (String × List (Option ℚ)) → String → Option (List (Option ℚ))
  | [], _ => none
  | c :: cs, s => if c.1 = s then some c.2 else lookupCol cs s

/-- Column access `merged_nc[s]` for a numeric indicator column. -/
def Table.col (t : Table) (s : String) : Option (List (Option ℚ)) := lookupCol t.data s

/-- The initial `gpd.GeoDataFrame()` of line 128: no rows, no columns. -/
def emptyTable : Table := ⟨false, [], none, [], []⟩

/-- Row count of the dataframe (`len(merged_nc)`). -/
def Table.nRows (t : Table) : Nat :=
  if t.hasCountyCol then t.counties.length
  else
    match t.data with
    | [] => 0
    | c :: _ => c.2.length

/-! ### Region Key Resolver (lines 163-178 of `app.py`) -/

/-- `merged_nc['County'].astype(str) + "_" + merged_nc.index.astype(str)`
(line 170).  A freshly read dataframe carries the `RangeIndex 0..n-1`, so
the index is the 0-based load-order row position. -/
def synthIDs : Nat → List String → List String
  | _, [] => []
  | i, c :: cs => rowID c i :: synthIDs (i + 1) cs

/-- The module-level state shared by the callbacks: the attribute table and
the `featureidkey` chosen at startup. -/
structure GlobalState where
  table : Table
  featureidkey : String
deriving DecidableEq

/-- Lines 163-178: check uniqueness of `County` (pandas `nunique`, the
number of distinct values, modelled by `dedup.length`); on collision create
`County_ID` and point `featureidkey` at it; if the `County` column is
absent, print an error message (the returned flag) and keep the default
`featureidkey = 'properties.County'`.  No exception is raised on any
branch. -/
def resolveTable (t : Table) : GlobalState × Bool :=
  if t.hasCountyCol then
    if t.counties.dedup.length = t.counties.length then
      (⟨t, "properties.County"⟩, false)
    else
      (⟨{ t with countyIDs := some (synthIDs 0 t.counties) }, "properties.County_ID"⟩, false)
  else
    (⟨t, "properties.County"⟩, true)

/-- The identifier column the resolved table offers for downstream lookups:
`County_ID` when it was synthesized, otherwise the natural key `County`. -/
def identifiers (t : Table) : List String :=
  match (resolveTable t).1.table.countyIDs with
  | some ids => ids
  | none => (resolveTable t).1.table.counties

/-- Outcome of the whole startup block (lines 128-187): the resulting
module state, whether the load failed (the `except` prints of lines
136-139) and whether the `County` column was reported missing. -/
structure Startup where
  state : GlobalState
  dataUnavailable : Bool
  countyMissing : Bool
deriving DecidableEq

/-- Lines 128-187: try to read the file (`none` models a missing or
unreadable file, caught by `except`, leaving `merged_nc` the empty
GeoDataFrame); if the dataframe is non-empty run the key resolution. -/
def startup : Option Table → Startup
  | none => ⟨⟨emptyTable, "properties.County"⟩, true, false⟩
  | some t =>
    if t.nRows = 0 then ⟨⟨t, "properties.County"⟩, false, false⟩
    else
      let r := resolveTable t
      ⟨r.1, false, r.2⟩

/-- The feature-identifier values the boundary GeoJSON document exposes at
the path `featureidkey` (the GeoJSON of lines 157/172 is regenerated from
the table, so each feature's properties carry every attribute column). -/
def boundaryIDs (g : GlobalState) : List String :=
  if g.featureidkey = "properties.County_ID" then g.table.countyIDs.getD []
  else g.table.counties

/-! ### Figures returned by `update_visualizations` (lines 357-569)

`Fig` captures the data-relevant content of each returned figure:
the "no indicator selected" placeholder, the "indicator not found" error
figure (its `data` list is empty), the choropleth inputs, the bar-chart
inputs, and the two `except`-branch fallback figures. -/

structure MapData where
  locations : String
  fkey : String
  ids : List String
  vals : List (Option ℚ)
  rangeLo : Option ℚ
  rangeHi : Option ℚ
deriving DecidableEq

structure BarData where
  xcol : String
  rows : List (String × ℚ)
deriving DecidableEq

inductive Fig where
  | emptyFig : Fig
  | notFound : String → Fig
  | mapFig : MapData → Fig
  | mapErr : Fig
  | barFig : BarData → Fig
  | barErr : Fig
deriving DecidableEq

/-- The triple (map figure, top-10 bar chart, bottom-10 bar chart). -/
abbrev Output := Fig × Fig × Fig

/-! ### Indicator Query Engine -/

/-- `Series.fillna(v)`: replace every missing cell by `v`; filling with
`NaN` (`none`) leaves the series unchanged. -/
def fillna (m : Option ℚ) (vals : List (Option ℚ)) : List (Option ℚ) :=
  match m with
  | none => vals
  | some v => vals.map (fun x => some (x.getD v))

/-- Middle element of an ascending-sorted list, or the mean of the two
middle elements for an even length. -/
def medianSorted (s : List ℚ) : Option ℚ :=
  if s.length = 0 then none
  else if s.length % 2 = 1 then s[s.length / 2]?
  else
    match s[s.length / 2 - 1]?, s[s.length / 2]? with
    | some a, some b => some ((a + b) / 2)
    | _, _ => none

/-- `Series.median()` over the non-missing values: sort ascending and take
the middle element, or the mean of the two middle elements for an even
count; `none` (pandas `NaN`) for an empty series. -/
def median (xs : List ℚ) : Option ℚ :=
  medianSorted (List.insertionSort (· ≤ ·) xs)

/-- Lines 410-412: if the selected column has any missing value, fill the
missing values with the column's median (a no-op when the median itself is
undefined because every value is missing). -/
def imputeCol (col : List (Option ℚ)) : List (Option ℚ) :=
  if col.any (fun v => v.isNone) then fillna (median (col.filterMap id)) col else col

/-- `Series.min()` (skipna): `none` when no value is present. -/
def colMin (col : List (Option ℚ)) : Option ℚ :=
  match col.filterMap id with
  | [] => none
  | x :: xs => some (xs.foldl min x)

/-- `Series.max()` (skipna): `none` when no value is present. -/
def colMax (col : List (Option ℚ)) : Option ℚ :=
  match col.filterMap id with
  | [] => none
  | x :: xs => some (xs.foldl max x)

/-- The rows that participate in ranking: `nlargest`/`nsmallest` drop rows
whose value is missing. -/
def validRows (rows : List (String × Option ℚ)) : List (String × ℚ) :=
  rows.filterMap (fun r => r.2.map (fun v => (r.1, v)))

/-- Descending comparison on the ranked value (second component). -/
def descRel (a b : String × ℚ) : Prop := b.2 ≤ a.2

/-- Ascending comparison on the ranked value (second component). -/
def ascRel (a b : String × ℚ) : Prop := a.2 ≤ b.2

instance : DecidableRel descRel := fun a b => inferInstanceAs (Decidable (b.2 ≤ a.2))

instance : DecidableRel ascRel := fun a b => inferInstanceAs (Decidable (a.2 ≤ b.2))

instance : IsTotal (String × ℚ) descRel := ⟨fun a b => le_total b.2 a.2⟩

instance : IsTotal (String × ℚ) ascRel := ⟨fun a b => le_total a.2 b.2⟩

instance : IsTrans (String × ℚ) descRel := ⟨fun _ _ _ h1 h2 => le_trans h2 h1⟩

instance : IsTrans (String × ℚ) ascRel := ⟨fun _ _ _ h1 h2 => le_trans h1 h2⟩

/-- `DataFrame.nlargest(n, col)` (default `keep='first'`): the first `n`
rows of the stable descending sort by the column, missing values dropped;
ties keep their original order. -/
def nlargestRows (n : Nat) (rows : List (String × Option ℚ)) : List (String × ℚ) :=
  (List.insertionSort descRel (validRows rows)).take n

/-- `DataFrame.nsmallest(n, col)` (default `keep='first'`). -/
def nsmallestRows (n : Nat) (rows : List (String × Option ℚ)) : List (String × ℚ) :=
  (List.insertionSort ascRel (validRows rows)).take n

/-- Line 419 (and 463/519): `'County' if 'County' in columns else 'County_ID'`. -/
def locName (t : Table) : String :=
  if "County" ∈ t.columns then "County" else "County_ID"

/-- The values of the column used as `locations`/`x`; `none` when the
column does not exist in the dataframe (plotly then raises, which the
`except` branches turn into fallback figures). -/
def locValues (t : Table) (c : String) : Option (List String) :=
  if c = "County" ∧ t.hasCountyCol then some t.counties
  else if c = "County_ID" then t.countyIDs
  else none

/-- The callback body `update_visualizations(selected_indicator)`
(lines 364-569) as a function of the module state.  The result is `none`
only when the selected name is a present but non-numeric column (e.g.
`"County"` or `"geometry"`): there the `median`/`nlargest` calls raise an
uncaught `TypeError` outside every `try` block.  Note that the imputation
happens on `merged_nc_clean = merged_nc.copy()` (line 409), which differs
from the stored table only in the selected column's values, so the
`columns` checks below read the same column index. -/
def update (g : GlobalState) (sel : Option String) : Option Output :=
  match sel with
  | none => some (Fig.emptyFig, Fig.emptyFig, Fig.emptyFig)
  | some s =>
    if s = "" then some (Fig.emptyFig, Fig.emptyFig, Fig.emptyFig)
    else if s ∈ g.table.columns then
      match g.table.col s with
      | some col =>
        let colC := imputeCol col
        let loc := locName g.table
        let mp :=
          match locValues g.table loc with
          | some ids =>
            if g.table.hasCountyCol then
              Fig.mapFig ⟨loc, g.featureidkey, ids, colC, colMin colC, colMax colC⟩
            else Fig.mapErr
          | none => Fig.mapErr
        let tb :=
          match locValues g.table loc with
          | some ids => Fig.barFig ⟨loc, nlargestRows 10 (ids.zip colC)⟩
          | none => Fig.barErr
        let bb :=
          match locValues g.table loc with
          | some ids => Fig.barFig ⟨loc, nsmallestRows 10 (ids.zip colC)⟩
          | none => Fig.barErr
        some (mp, tb, bb)
      | none => none
    else some (Fig.notFound s, Fig.notFound s, Fig.notFound s)

/-- The callback with the module-level state made explicit: it reads the
globals and writes none of them back — line 409 copies the table before
the per-query imputation mutates anything. -/
def callback (g : GlobalState) (sel : Option String) : Option Output × GlobalState :=
  (update g sel, g)

/-! ### Projections of the returned figure triple -/

def mapValsOf (o : Output) : List (Option ℚ) :=
  match o.1 with | Fig.mapFig d => d.vals | _ => []

def mapIdsOf (o : Output) : List String :=
  match o.1 with | Fig.mapFig d => d.ids | _ => []

def mapLocOf (o : Output) : Option String :=
  match o.1 with | Fig.mapFig d => some d.locations | _ => none

def mapKeyOf (o : Output) : Option String :=
  match o.1 with | Fig.mapFig d => some d.fkey | _ => none

def topRowsOf (o : Output) : List (String × ℚ) :=
  match o.2.1 with | Fig.barFig d => d.rows | _ => []

def botRowsOf (o : Output) : List (String × ℚ) :=
  match o.2.2 with | Fig.barFig d => d.rows | _ => []

/-! ### Concrete tables used as witnesses and counterexamples -/

/-- A table whose natural key collides: `"Wake"` appears at rows 0 and 1. -/
def tW : Table := ⟨true, ["Wake", "Wake"], none, [("X", [some 1, some 2])], ["geometry"]⟩

/-- The module state after startup on `tW` (the resolver synthesized
`County_ID`). -/
def gW : GlobalState := (resolveTable tW).1

/-- Scenario A's indicator column: values `[10, missing, 30]`. -/
def colA : List (Option ℚ) := [some 10, none, some 30]

/-- Scenario A: three regions, indicator values `[10, missing, 30]`. -/
def tA : Table := ⟨true, ["r1", "r2", "r3"], none, [("X", colA)], ["geometry"]⟩

def gA : GlobalState := ⟨tA, "properties.County"⟩

/-- Scenario D: every value of the indicator is missing. -/
def tD : Table := ⟨true, ["A", "B"], none, [("X", [none, none])], ["geometry"]⟩

def gD : GlobalState := ⟨tD, "properties.County"⟩

/-- A table whose `County` column is absent. -/
def tM : Table := ⟨false, [], none, [("X", [some 1, some 2])], ["geometry"]⟩

/-- Scenario B: `"Wake"` appears at rows 0 and 3. -/
def tB : Table :=
  ⟨true, ["Wake", "Alpha", "Beta", "Wake"], none,
    [("X", [some 1, some 2, some 3, some 4])], ["geometry"]⟩

/-! ### Supporting lemmas -/

theorem median_isSome {xs : List ℚ} (h : xs ≠ []) : ∃ m, median xs = some m := by
  have hlen : (List.insertionSort (· ≤ ·) xs).length = xs.length :=
    List.length_insertionSort _ xs
  have hpos : 0 < xs.length := List.length_pos.mpr h
  unfold median medianSorted
  rw [if_neg (by omega)]
  by_cases hodd : (List.insertionSort (· ≤ ·) xs).length % 2 = 1
  · rw [if_pos hodd]
    have hlt : (List.insertionSort (· ≤ ·) xs).length / 2
        < (List.insertionSort (· ≤ ·) xs).length :=
      Nat.div_lt_self (by omega) (by norm_num)
    exact ⟨_, List.getElem?_eq_getElem hlt⟩
  · rw [if_neg hodd]
    have hlt2 : (List.insertionSort (· ≤ ·) xs).length / 2
        < (List.insertionSort (· ≤ ·) xs).length :=
      Nat.div_lt_self (by omega) (by norm_num)
    have hlt1 : (List.insertionSort (· ≤ ·) xs).length / 2 - 1
        < (List.insertionSort (· ≤ ·) xs).length := by omega
    rw [List.getElem?_eq_getElem hlt1, List.getElem?_eq_getElem hlt2]
    exact ⟨_, rfl⟩

theorem lookupCol_mem :
    ∀ (d : List (String × List (Option ℚ))) (s : String) (col : List (Option ℚ)),
      lookupCol d s = some col → s ∈ d.map Prod.fst := by
  intro d
  induction d with
  | nil => intro s col h; simp [lookupCol] at h
  | cons c cs ih =>
    intro s col h
    simp only [lookupCol] at h
    by_cases hc : c.1 = s
    · simp [hc]
    · rw [if_neg hc] at h
      simp only [List.map_cons, List.mem_cons]
      exact Or.inr (ih s col h)

theorem col_mem_columns {t : Table} {s : String} {col : List (Option ℚ)}
    (h : t.col s = some col) : s ∈ t.columns := by
  have hm := lookupCol_mem t.data s col h
  unfold Table.columns
  simp only [List.mem_append]
  tauto

/-- Branch resolution of the callback on the normal path: a non-empty
selection naming a numeric column of a table that has the `County`
column. -/
theorem update_some_eq {g : GlobalState} {s : String} {col : List (Option ℚ)}
    (hs : s ≠ "") (hcol : g.table.col s = some col) (hc : g.table.hasCountyCol = true) :
    update g (some s) = some
      (Fig.mapFig ⟨"County", g.featureidkey, g.table.counties, imputeCol col,
        colMin (imputeCol col), colMax (imputeCol col)⟩,
       Fig.barFig ⟨"County", nlargestRows 10 (g.table.counties.zip (imputeCol col))⟩,
       Fig.barFig ⟨"County", nsmallestRows 10 (g.table.counties.zip (imputeCol col))⟩) := by
  have hmem : s ∈ g.table.columns := col_mem_columns hcol
  have hcmem : "County" ∈ g.table.columns := by
    unfold Table.columns
    rw [hc]
    simp
  have hloc : locName g.table = "County" := by
    unfold locName
    rw [if_pos hcmem]
  have hlv : locValues g.table "County" = some g.table.counties := by
    unfold locValues
    rw [if_pos ⟨rfl, hc⟩]
  simp only [update, if_neg hs, if_pos hmem, hcol, hloc, hlv, hc, if_true]

/-- Branch resolution of the callback on an unrecognized indicator name. -/
theorem update_notFound {g : GlobalState} {s : String} (hs : s ≠ "")
    (h : s ∉ g.table.columns) :
    update g (some s) = some (Fig.notFound s, Fig.notFound s, Fig.notFound s) := by
  simp only [update, if_neg hs, if_neg h]

theorem nodup_of_dedup_length {α : Type} [DecidableEq α] {l : List α}
    (h : l.dedup.length = l.length) : l.Nodup := by
  have hs : l.dedup = l := (List.dedup_sublist l).eq_of_length h
  rw [← hs]
  exact List.nodup_dedup l

theorem mem_synthIDs :
    ∀ (cs : List String) (i : Nat) (x : String),
      x ∈ synthIDs i cs → ∃ j c, i ≤ j ∧ x = rowID c j := by
  intro cs
  induction cs with
  | nil => intro i x h; simp [synthIDs] at h
  | cons c cs ih =>
    intro i x h
    simp only [synthIDs, List.mem_cons] at h
    rcases h with h | h
    · exact ⟨i, c, le_refl i, h⟩
    · rcases ih (i + 1) x h with ⟨j, c', hj, hx⟩
      exact ⟨j, c', by omega, hx⟩

theorem synthIDs_nodup : ∀ (cs : List String) (i : Nat), (synthIDs i cs).Nodup := by
  intro cs
  induction cs with
  | nil => intro i; simp [synthIDs]
  | cons c cs ih =>
    intro i
    simp only [synthIDs, List.nodup_cons]
    refine ⟨?_, ih (i + 1)⟩
    intro hmem
    rcases mem_synthIDs cs (i + 1) _ hmem with ⟨j, c', hj, hx⟩
    have := rowID_index_injective hx
    omega

theorem synthIDs_getElem? :
    ∀ (cs : List String) (i k : Nat),
      (synthIDs i cs)[k]? = cs[k]?.map (fun c => rowID c (i + k)) := by
  intro cs
  induction cs with
  | nil => intro i k; simp [synthIDs]
  | cons c cs ih =>
    intro i k
    cases k with
    | zero => simp [synthIDs]
    | succ k =>
      simp only [synthIDs, List.getElem?_cons_succ]
      rw [ih (i + 1) k]
      have harith : i + 1 + k = i + (k + 1) := by omega
      rw [harith]

theorem imputeCol_getElem? {col : List (Option ℚ)} {m : ℚ}
    (hmed : median (col.filterMap id) = some m) :
    ∀ k : Nat,
      (col[k]? = some none → (imputeCol col)[k]? = some (some m)) ∧
      (∀ v : ℚ, col[k]? = some (some v) → (imputeCol col)[k]? = some (some v)) := by
  intro k
  by_cases hmiss : col.any (fun v => v.isNone) = true
  · have himp : imputeCol col = col.map (fun x => some (x.getD m)) := by
      unfold imputeCol
      rw [hmiss, if_pos rfl, hmed]
      rfl
    rw [himp]
    constructor
    · intro h
      rw [List.getElem?_map, h]
      rfl
    · intro v h
      rw [List.getElem?_map, h]
      rfl
  · have himp : imputeCol col = col := by
      unfold imputeCol
      rw [eq_false_of_ne_true hmiss, if_neg (by simp)]
    rw [himp]
    constructor
    · intro h
      exfalso
      apply hmiss
      rw [List.any_eq_true]
      exact ⟨none, List.getElem?_mem h, rfl⟩
    · intro v h
      exact h

/-- Stability of the ranking: the subsequence of tied rows of the first
`n` rows of the stable sort is a subsequence of the tied rows of the
input. -/
theorem filter_take_insertionSort {α : Type} (r : α → α → Prop) [DecidableRel r]
    (p : α → Bool) (l : List α) (n : Nat)
    (hp : ∀ a b, p a = true → p b = true → r a b) :
    List.Sublist (((List.insertionSort r l).take n).filter p) (l.filter p) := by
  have hc : (l.filter p).Pairwise r := by
    apply List.pairwise_of_forall_mem_list
    intro a ha b hb
    exact hp a b (List.of_mem_filter ha) (List.of_mem_filter hb)
  have hsub : List.Sublist (l.filter p) (List.insertionSort r l) :=
    List.sublist_insertionSort hc (List.filter_sublist l)
  have h1 : (l.filter p).filter p = l.filter p :=
    List.filter_eq_self.mpr fun a ha => List.of_mem_filter ha
  have h2 : List.Sublist (l.filter p) ((List.insertionSort r l).filter p) := by
    have := hsub.filter p
    rwa [h1] at this
  have hperm : List.Perm ((List.insertionSort r l).filter p) (l.filter p) :=
    (List.perm_insertionSort r l).filter p
  have heq : (List.insertionSort r l).filter p = l.filter p :=
    (h2.eq_of_length hperm.length_eq.symm).symm
  rw [← heq]
  exact ((List.take_sublist n _).filter p)

theorem validRows_mem {rows : List (String × Option ℚ)} {p : String × ℚ}
    (h : p ∈ validRows rows) : (p.1, some p.2) ∈ rows := by
  unfold validRows at h
  rcases List.mem_filterMap.mp h with ⟨⟨a1, a2⟩, ha, hfa⟩
  cases a2 with
  | none => simp at hfa
  | some v =>
    simp only [Option.map_some'] at hfa
    have hav : (a1, v) = p := Option.some.inj hfa
    rw [← hav]
    exact ha

theorem nlargestRows_mem {n : Nat} {rows : List (String × Option ℚ)} {p : String × ℚ}
    (h : p ∈ nlargestRows n rows) : (p.1, some p.2) ∈ rows := by
  unfold nlargestRows at h
  have h1 : p ∈ List.insertionSort descRel (validRows rows) :=
    (List.take_sublist n _).subset h
  exact validRows_mem ((List.mem_insertionSort descRel).mp h1)

theorem nsmallestRows_mem {n : Nat} {rows : List (String × Option ℚ)} {p : String × ℚ}
    (h : p ∈ nsmallestRows n rows) : (p.1, some p.2) ∈ rows := by
  unfold nsmallestRows at h
  have h1 : p ∈ List.insertionSort ascRel (validRows rows) :=
    (List.take_sublist n _).subset h
  exact validRows_mem ((List.mem_insertionSort ascRel).mp h1)

theorem nlargestRows_sorted (n : Nat) (rows : List (String × Option ℚ)) :
    (nlargestRows n rows).Pairwise (fun a b => b.2 ≤ a.2) := by
  have hs : (List.insertionSort descRel (validRows rows)).Pairwise descRel :=
    List.sorted_insertionSort descRel (validRows rows)
  exact List.Pairwise.sublist (List.take_sublist n _) hs

theorem nsmallestRows_sorted (n : Nat) (rows : List (String × Option ℚ)) :
    (nsmallestRows n rows).Pairwise (fun a b => a.2 ≤ b.2) := by
  have hs : (List.insertionSort ascRel (validRows rows)).Pairwise ascRel :=
    List.sorted_insertionSort ascRel (validRows rows)
  exact List.Pairwise.sublist (List.take_sublist n _) hs

theorem nlargestRows_ties (n : Nat) (rows : List (String × Option ℚ)) (v : ℚ) :
    List.Sublist ((nlargestRows n rows).filter (fun p => decide (p.2 = v)))
      ((validRows rows).filter (fun p => decide (p.2 = v))) := by
  apply filter_take_insertionSort descRel
  intro a b ha hb
  have ha' : a.2 = v := of_decide_eq_true ha
  have hb' : b.2 = v := of_decide_eq_true hb
  show b.2 ≤ a.2
  rw [ha', hb']

theorem nsmallestRows_ties (n : Nat) (rows : List (String × Option ℚ)) (v : ℚ) :
    List.Sublist ((nsmallestRows n rows).filter (fun p => decide (p.2 = v)))
      ((validRows rows).filter (fun p => decide (p.2 = v))) := by
  apply filter_take_insertionSort ascRel
  intro a b ha hb
  have ha' : a.2 = v := of_decide_eq_true ha
  have hb' : b.2 = v := of_decide_eq_true hb
  show a.2 ≤ b.2
  rw [ha', hb']

/-! ### Concrete evaluations for Scenario A

Rational division does not reduce inside the kernel, so the Scenario A
evaluations are established with `norm_num` instead of `decide`. -/

theorem median_colA : median (colA.filterMap id) = some 20 := by
  have h1 : colA.filterMap id = [(10 : ℚ), 30] := rfl
  have h2 : List.insertionSort (· ≤ ·) [(10 : ℚ), 30] = [(10 : ℚ), 30] := by
    simp only [List.insertionSort, List.orderedInsert]
    rw [if_pos (by norm_num)]
  unfold median
  rw [h1, h2]
  norm_num [medianSorted]

theorem imputeCol_colA : imputeCol colA = [some 10, some 20, some 30] := by
  have hany : colA.any (fun v => v.isNone) = true := rfl
  unfold imputeCol
  rw [hany, if_pos rfl, median_colA]
  rfl

theorem nlargest2_colA :
    nlargestRows 2 (tA.counties.zip (imputeCol colA)) = [("r3", 30), ("r2", 20)] := by
  rw [imputeCol_colA]
  decide

theorem nsmallest2_colA :
    nsmallestRows 2 (tA.counties.zip (imputeCol colA)) = [("r1", 10), ("r2", 20)] := by
  rw [imputeCol_colA]
  decide

/-! ### The claims -/

/-- **C1.** The claim states that whenever the resolver synthesized
composite identifiers, every downstream lookup uses the identical
identifier scheme: the choropleth's `locations` column equals the scheme
of the boundary document's `featureidkey`.  The code violates this: on the
duplicated-`Wake` table the resolver sets
`featureidkey = 'properties.County_ID'` and rebuilds the boundary document
keyed by `["Wake_0", "Wake_1"]`, yet `update_visualizations` still passes
`locations='County'` (line 419 prefers `County` whenever that column is
present, and it always is on this path), so the choropleth matches the raw
names `["Wake", "Wake"]` against feature identifiers they never equal. -/
theorem c1_locations_featureidkey_mismatch :
    (resolveTable tW).1.featureidkey = "properties.County_ID" ∧
    (update gW (some "X")).map mapLocOf = some (some "County") ∧
    (update gW (some "X")).map mapKeyOf = some (some "properties.County_ID") ∧
    (update gW (some "X")).map mapIdsOf = some ["Wake", "Wake"] ∧
    boundaryIDs gW = ["Wake_0", "Wake_1"] ∧
    (∀ x ∈ ["Wake", "Wake"], x ∉ ["Wake_0", "Wake_1"]) := by
  decide

/-- **C2 (counterexample).** On a recognized indicator whose values are all
missing, the callback does not produce an insufficient-data variant: it
returns the normal map figure whose color-value column still contains the
missing markers (pandas `NaN`, modelled `none`), refuting the claim that no
NaN appears in the returned result sets. -/
theorem c2_counterexample :
    (update gD (some "X")).map mapValsOf = some [none, none] := by
  decide

/-- **C2 (amended).** For every query on a recognized indicator whose
values are all missing, the callback follows the normal path: the median is
undefined (`NaN`) so `fillna` is a no-op, the map figure carries the
all-missing value column with an undefined color range, and the top and
bottom subsets are empty because `nlargest`/`nsmallest` drop missing rows;
no explicit insufficient-data variant exists. -/
theorem c2_all_missing_normal_path {g : GlobalState} {s : String}
    {col : List (Option ℚ)} (hs : s ≠ "") (hcol : g.table.col s = some col)
    (hc : g.table.hasCountyCol = true) (hall : ∀ v ∈ col, v = none) :
    update g (some s) = some
      (Fig.mapFig ⟨"County", g.featureidkey, g.table.counties, col, none, none⟩,
       Fig.barFig ⟨"County", []⟩, Fig.barFig ⟨"County", []⟩) := by
  have hfm : col.filterMap id = [] := by
    rw [List.filterMap_eq_nil_iff]
    intro a ha
    rw [hall a ha]
    rfl
  have himp : imputeCol col = col := by
    unfold imputeCol
    by_cases hmiss : col.any (fun v => v.isNone) = true
    · rw [hmiss, if_pos rfl, hfm]
      rfl
    · rw [eq_false_of_ne_true hmiss, if_neg (by simp)]
  have hmin : colMin col = none := by
    unfold colMin
    rw [hfm]
  have hmax : colMax col = none := by
    unfold colMax
    rw [hfm]
  have hvr : validRows (g.table.counties.zip col) = [] := by
    unfold validRows
    rw [List.filterMap_eq_nil_iff]
    intro r hr
    obtain ⟨r1, r2⟩ := r
    have h2 : r2 ∈ col := (List.of_mem_zip hr).2
    rw [hall r2 h2]
    rfl
  have htop : nlargestRows 10 (g.table.counties.zip col) = [] := by
    unfold nlargestRows
    rw [hvr]
    rfl
  have hbot : nsmallestRows 10 (g.table.counties.zip col) = [] := by
    unfold nsmallestRows
    rw [hvr]
    rfl
  rw [update_some_eq hs hcol hc, himp, hmin, hmax, htop, hbot]

/-- Witness for the amended C2 at Scenario D's table. -/
theorem c2_amended_witness :
    update gD (some "X") = some
      (Fig.mapFig ⟨"County", "properties.County", ["A", "B"], [none, none], none, none⟩,
       Fig.barFig ⟨"County", []⟩, Fig.barFig ⟨"County", []⟩) :=
  @c2_all_missing_normal_path gD "X" [none, none] (by decide) (by decide) rfl (by decide)

/-- **C3 (counterexample).** On a table without the `County` column the
resolver does not fail with a schema error: it returns a normal state (only
flagging the printed error message) and keeps the default fallback
`featureidkey = 'properties.County'`. -/
theorem c3_counterexample :
    resolveTable tM = (⟨tM, "properties.County"⟩, true) ∧
    (resolveTable tM).1.featureidkey = "properties.County" := by
  decide

/-- **C3 (amended).** Whenever the natural key column `County` is absent,
the resolver prints an error and continues: no identifier is synthesized,
the table is unchanged, and `featureidkey` stays at the default
`'properties.County'`; no exception or failure value is produced. -/
theorem c3_county_missing_continues (t : Table) (h : t.hasCountyCol = false) :
    resolveTable t = (⟨t, "properties.County"⟩, true) := by
  simp [resolveTable, h]

/-- Witness for the amended C3 at the concrete `County`-less table. -/
theorem c3_amended_witness :
    resolveTable tM = (⟨tM, "properties.County"⟩, true) :=
  c3_county_missing_continues tM rfl

/-- **C4.** After the Region Key Resolver runs on a freshly loaded table
whose `County` column is present, the identifier column has zero duplicate
values; when the distinct count of the natural key equals the row count the
natural key is used unmodified, and otherwise row `k` receives the
composite identifier `county ++ "_" ++ k` built from the 0-based
load-order row index. -/
theorem c4_identifier_uniqueness (t : Table) (hc : t.hasCountyCol = true)
    (h0 : t.countyIDs = none) :
    (identifiers t).Nodup ∧
    (t.counties.dedup.length = t.counties.length → identifiers t = t.counties) ∧
    (t.counties.dedup.length ≠ t.counties.length →
      ∀ k : Nat, (identifiers t)[k]? = t.counties[k]?.map (fun c => rowID c k)) := by
  by_cases hd : t.counties.dedup.length = t.counties.length
  · have hid : identifiers t = t.counties := by
      simp [identifiers, resolveTable, hc, hd, h0]
    refine ⟨?_, fun _ => hid, fun hne => absurd hd hne⟩
    rw [hid]
    exact nodup_of_dedup_length hd
  · have hid : identifiers t = synthIDs 0 t.counties := by
      simp [identifiers, resolveTable, hc, hd]
    refine ⟨?_, fun h => absurd h hd, fun _ k => ?_⟩
    · rw [hid]
      exact synthIDs_nodup t.counties 0
    · rw [hid, synthIDs_getElem?]
      simp

/-- Witness for C4 at Scenario B's table (`"Wake"` at rows 0 and 3). -/
theorem c4_witness :
    (identifiers tB).Nodup ∧
    identifiers tB = ["Wake_0", "Alpha_1", "Beta_2", "Wake_3"] := by
  refine ⟨(c4_identifier_uniqueness tB rfl rfl).1, ?_⟩
  decide

/-- **C5.** For every query on a recognized indicator over a table with at
least one non-missing value, the top-N subset is sorted descending and the
bottom-N subset ascending by the imputed indicator value, both subsets draw
their rows from the full (imputed) region set, and tied rows keep their
relative original load order in both subsets; the callback returns exactly
these subsets with N = 10. -/
theorem c5_ranking (g : GlobalState) (s : String) (col : List (Option ℚ)) (n : Nat)
    (hs : s ≠ "") (hcol : g.table.col s = some col) (hc : g.table.hasCountyCol = true)
    (_hnm : col.filterMap id ≠ []) :
    update g (some s) = some
      (Fig.mapFig ⟨"County", g.featureidkey, g.table.counties, imputeCol col,
        colMin (imputeCol col), colMax (imputeCol col)⟩,
       Fig.barFig ⟨"County", nlargestRows 10 (g.table.counties.zip (imputeCol col))⟩,
       Fig.barFig ⟨"County", nsmallestRows 10 (g.table.counties.zip (imputeCol col))⟩) ∧
    (nlargestRows n (g.table.counties.zip (imputeCol col))).Pairwise
      (fun a b => b.2 ≤ a.2) ∧
    (nsmallestRows n (g.table.counties.zip (imputeCol col))).Pairwise
      (fun a b => a.2 ≤ b.2) ∧
    (∀ p ∈ nlargestRows n (g.table.counties.zip (imputeCol col)),
      (p.1, some p.2) ∈ g.table.counties.zip (imputeCol col)) ∧
    (∀ p ∈ nsmallestRows n (g.table.counties.zip (imputeCol col)),
      (p.1, some p.2) ∈ g.table.counties.zip (imputeCol col)) ∧
    (∀ v : ℚ, List.Sublist
      ((nlargestRows n (g.table.counties.zip (imputeCol col))).filter
        (fun p => decide (p.2 = v)))
      ((validRows (g.table.counties.zip (imputeCol col))).filter
        (fun p => decide (p.2 = v)))) ∧
    (∀ v : ℚ, List.Sublist
      ((nsmallestRows n (g.table.counties.zip (imputeCol col))).filter
        (fun p => decide (p.2 = v)))
      ((validRows (g.table.counties.zip (imputeCol col))).filter
        (fun p => decide (p.2 = v)))) :=
  ⟨update_some_eq hs hcol hc, nlargestRows_sorted n _, nsmallestRows_sorted n _,
    fun _ hp => nlargestRows_mem hp, fun _ hp => nsmallestRows_mem hp,
    fun v => nlargestRows_ties n _ v, fun v => nsmallestRows_ties n _ v⟩

/-- Witness for C5 at Scenario A's table with N = 2. -/
theorem c5_witness :
    nlargestRows 2 (gA.table.counties.zip (imputeCol colA)) = [("r3", 30), ("r2", 20)] ∧
    nsmallestRows 2 (gA.table.counties.zip (imputeCol colA)) = [("r1", 10), ("r2", 20)] ∧
    (nlargestRows 2 (gA.table.counties.zip (imputeCol colA))).Pairwise
      (fun a b => b.2 ≤ a.2) := by
  refine ⟨nlargest2_colA, nsmallest2_colA, ?_⟩
  exact (c5_ranking gA "X" colA 2 (by decide) (by decide) rfl (by decide)).2.1

/-- **C6.** For every query on a recognized indicator with at least one
non-missing value: the median of the non-missing values exists, the map
receives exactly the imputed column, every missing cell is imputed to that
median, and every non-missing cell is returned unchanged. -/
theorem c6_median_imputation (g : GlobalState) (s : String) (col : List (Option ℚ))
    (hs : s ≠ "") (hcol : g.table.col s = some col) (hc : g.table.hasCountyCol = true)
    (hnm : col.filterMap id ≠ []) :
    ∃ m : ℚ, median (col.filterMap id) = some m ∧
      (update g (some s)).map mapValsOf = some (imputeCol col) ∧
      (∀ k : Nat, col[k]? = some none → (imputeCol col)[k]? = some (some m)) ∧
      (∀ k : Nat, ∀ v : ℚ, col[k]? = some (some v) →
        (imputeCol col)[k]? = some (some v)) := by
  rcases median_isSome hnm with ⟨m, hm⟩
  refine ⟨m, hm, ?_, fun k => (imputeCol_getElem? hm k).1,
    fun k => (imputeCol_getElem? hm k).2⟩
  rw [update_some_eq hs hcol hc]
  rfl

/-- Witness for C6 at Scenario A: median of `[10, 30]` is `20`, the imputed
column is `[10, 20, 30]`, and the N = 2 subsets are `[30, 20]` and
`[10, 20]`. -/
theorem c6_witness :
    median (colA.filterMap id) = some 20 ∧
    imputeCol colA = [some 10, some 20, some 30] ∧
    nlargestRows 2 (tA.counties.zip (imputeCol colA)) = [("r3", 30), ("r2", 20)] ∧
    nsmallestRows 2 (tA.counties.zip (imputeCol colA)) = [("r1", 10), ("r2", 20)] ∧
    (∃ m : ℚ, median (colA.filterMap id) = some m ∧
      (update gA (some "X")).map mapValsOf = some (imputeCol colA) ∧
      (∀ k : Nat, colA[k]? = some none → (imputeCol colA)[k]? = some (some m)) ∧
      (∀ k : Nat, ∀ v : ℚ, colA[k]? = some (some v) →
        (imputeCol colA)[k]? = some (some v))) := by
  refine ⟨median_colA, imputeCol_colA, nlargest2_colA, nsmallest2_colA, ?_⟩
  exact c6_median_imputation gA "X" colA (by decide) (by decide) rfl (by decide)

/-- **C7.** The callback reads the module state and writes none of it back
(the imputation works on a copy), so the stored table is unchanged after a
query and querying the same indicator twice yields identical results. -/
theorem c7_pure_idempotent (g : GlobalState) (sel : Option String) :
    (callback g sel).2 = g ∧
    (callback (callback g sel).2 sel).1 = (callback g sel).1 :=
  ⟨rfl, rfl⟩

/-- **C8.** For every indicator name that is not a recognized column, the
callback returns (rather than raises) the explicit not-found figure in all
three slots, and each slot carries empty data. -/
theorem c8_not_found (g : GlobalState) (s : String) (hs : s ≠ "")
    (h : s ∉ g.table.columns) :
    update g (some s) = some (Fig.notFound s, Fig.notFound s, Fig.notFound s) ∧
    mapValsOf (Fig.notFound s, Fig.notFound s, Fig.notFound s) = [] ∧
    mapIdsOf (Fig.notFound s, Fig.notFound s, Fig.notFound s) = [] ∧
    topRowsOf (Fig.notFound s, Fig.notFound s, Fig.notFound s) = [] ∧
    botRowsOf (Fig.notFound s, Fig.notFound s, Fig.notFound s) = [] :=
  ⟨update_notFound hs h, rfl, rfl, rfl, rfl⟩

/-- Witness for C8: querying an indicator missing from Scenario A's table. -/
theorem c8_witness :
    update gA (some "Median Household Income") =
      some (Fig.notFound "Median Household Income",
        Fig.notFound "Median Household Income",
        Fig.notFound "Median Household Income") :=
  (c8_not_found gA "Median Household Income" (by decide) (by decide)).1

/-- **C9.** When the input file is missing or unreadable, startup reports
the load failure, leaves the Region Table empty, and does not raise; every
subsequent query on a named indicator returns the degraded not-found
figure triple, and an empty selection returns the placeholder triple. -/
theorem c9_load_failure :
    startup none = ⟨⟨emptyTable, "properties.County"⟩, true, false⟩ ∧
    (startup none).state.table = emptyTable ∧
    (∀ s : String, s ≠ "" → update (startup none).state (some s) =
      some (Fig.notFound s, Fig.notFound s, Fig.notFound s)) ∧
    update (startup none).state none =
      some (Fig.emptyFig, Fig.emptyFig, Fig.emptyFig) := by
  refine ⟨rfl, rfl, ?_, rfl⟩
  intro s hs
  apply update_notFound hs
  show s ∉ emptyTable.columns
  simp [emptyTable, Table.columns]

/-- Witness for C9: a concrete indicator query after a failed load. -/
theorem c9_witness :
    update ⟨emptyTable, "properties.County"⟩ (some "Life Expectancy") =
      some (Fig.notFound "Life Expectancy", Fig.notFound "Life Expectancy",
        Fig.notFound "Life Expectancy") :=
  c9_load_failure.2.2.1 "Life Expectancy" (by decide)

/-- **C10.** A query event carrying no indicator (a `None` or empty
selection) returns the three identical placeholder figures without reading
the Region Table: the output is the same for every module state, and it
never raises. -/
theorem c10_empty_selection (g g' : GlobalState) (sel : Option String)
    (h : sel = none ∨ sel = some "") :
    update g sel = some (Fig.emptyFig, Fig.emptyFig, Fig.emptyFig) ∧
    update g sel = update g' sel := by
  rcases h with h | h <;> subst h
  · exact ⟨rfl, rfl⟩
  · exact ⟨by simp [update], by simp [update]⟩

/-- Witness for C10 at two different concrete states. -/
theorem c10_witness :
    update gA none = some (Fig.emptyFig, Fig.emptyFig, Fig.emptyFig) ∧
    update gA none = update gD none :=
  c10_empty_selection gA gD none (Or.inl rfl)

end NCApp
